import Mathlib

/-!
Verification of the VPAID audio-ad creative (`script_audi.js`).

Shallow embedding of the creative's components and proofs about them:

* the quartile tracker (`timeUpdateHandler_`),
* the tracking-event trigger with its dedup/rate-limit policy (`event.trigger`),
* the click gate (`handleRedirection`, `triggerRedirection`, the shared
  `allowRedirect` / `alreadyClicked` closure variables),
* the lifecycle event dispatcher (`subscribe` / `unsubscribe` / `callEvent_`),
* media-source selection (`updateVideoSlot_` inside `initAd`),
* the POI-based audio selection in `startAd`,
* the elapsed-time parameter computed by `event.addParams`,
* the interaction-position capture (`getPosition`),
* the volume attribute (`setAdVolume` / `getAdVolume` / `muteButtonOnClick_`).

JavaScript numbers are modelled as `ℚ` (all arithmetic in the relevant code
paths is exact on rationals), JS objects used as string-keyed maps as
association lists, and code that can raise as `Except`.
-/

/-- Models `Math.round` on an exact rational: JS `Math.round` is
`⌊x + 0.5⌋` for all finite `x`. -/
def jsRound (q : ℚ) : ℤ := ⌊q + 1/2⌋

/-! Quartile tracker (`timeUpdateHandler_`, lines 148–165). -/

/-- One entry of `this.quartileEvents_`. -/
structure QuartileEvent where
  event : String
  value : ℚ
deriving Repr, DecidableEq

/-- The list `this.quartileEvents_` as initialized in the constructor. -/
def quartileEvents_ : List QuartileEvent :=
  [⟨"AdVideoStart", 0⟩, ⟨"AdVideoFirstQuartile", 25⟩, ⟨"AdVideoMidpoint", 50⟩,
   ⟨"AdVideoThirdQuartile", 75⟩, ⟨"AdVideoComplete", 100⟩]

/-- The five quartile event names, in threshold order. -/
def quartileNames : List String := quartileEvents_.map (·.event)

/-- Whether an event name is one of the five quartile events. -/
def isQuartileName (e : String) : Bool := quartileNames.contains e

/-- The player state read and written by `timeUpdateHandler_`:
`lastQuartileIndex_` and the `duration` / `remainingTime` attributes. -/
structure PlayerState where
  lastQuartileIndex_ : Nat
  duration : ℚ
  remainingTime : ℚ
deriving Repr, DecidableEq

/-- Constructor defaults: `lastQuartileIndex_ = 0`, `attributes_['duration'] = 30`,
`attributes_['remainingTime'] = 13`. -/
def initPlayerState : PlayerState := ⟨0, 30, 13⟩

/-- One `timeupdate` tick of `timeUpdateHandler_`, given the media element's
`currentTime` and `duration`.  Returns the new state and the event names
dispatched on this call, in dispatch order.  Faithful to the source: the
quartile branch is a single `if` (not a loop), so at most one quartile event
fires per tick; when the cursor is past the end the handler returns early
(skipping the duration-change check as the code does). -/
def timeUpdateHandler_ (currentTime duration : ℚ) (s : PlayerState) :
    PlayerState × List String :=
  let s1 : PlayerState := { s with remainingTime := duration - currentTime }
  if h : s1.lastQuartileIndex_ ≥ quartileEvents_.length then (s1, [])
  else
    let percentPlayed := currentTime * 100 / duration
    let q := quartileEvents_.get ⟨s1.lastQuartileIndex_, by omega⟩
    let step : PlayerState × List String :=
      if percentPlayed ≥ q.value then
        ({ s1 with lastQuartileIndex_ := s1.lastQuartileIndex_ + 1 }, [q.event])
      else (s1, [])
    if step.1.duration ≠ duration then
      ({ step.1 with duration := duration }, step.2 ++ ["AdDurationChange"])
    else step

/-- A sequence of `timeupdate` ticks, each a `(currentTime, duration)` pair;
returns the final state and the concatenated dispatch trace. -/
def runTicks : List (ℚ × ℚ) → PlayerState → PlayerState × List String
  | [], s => (s, [])
  | (c, d) :: ts, s =>
    let r1 := timeUpdateHandler_ c d s
    let r2 := runTicks ts r1.1
    (r2.1, r1.2 ++ r2.2)

theorem quartileEvents_length : quartileEvents_.length = 5 := rfl

/-- Per-tick case analysis of `timeUpdateHandler_`: either the cursor does not
move and no quartile event is dispatched, or the cursor was below the end,
advances by exactly one, and exactly the single event at the cursor is
dispatched. -/
theorem timeUpdateHandler_cases (c d : ℚ) (s : PlayerState) :
    ((timeUpdateHandler_ c d s).1.lastQuartileIndex_ = s.lastQuartileIndex_
      ∧ ((timeUpdateHandler_ c d s).2).filter isQuartileName = [])
    ∨ (s.lastQuartileIndex_ < 5
      ∧ (timeUpdateHandler_ c d s).1.lastQuartileIndex_ = s.lastQuartileIndex_ + 1
      ∧ ((timeUpdateHandler_ c d s).2).filter isQuartileName
          = (quartileNames.drop s.lastQuartileIndex_).take 1) := by
  rcases s with ⟨idx, dur, rem⟩
  by_cases h5 : idx ≥ 5
  · left
    simp only [timeUpdateHandler_]
    rw [dif_pos (by simpa [quartileEvents_length] using h5)]
    simp
  · have hlt : idx < 5 := by omega
    simp only [timeUpdateHandler_]
    rw [dif_neg (by simpa [quartileEvents_length] using h5)]
    interval_cases idx <;>
      · dsimp only
        split
        · right
          refine ⟨by omega, ?_, ?_⟩
          · split <;> simp
          · split <;> simp [isQuartileName, quartileNames, quartileEvents_, List.filter] <;>
              decide
        · left
          constructor
          · split <;> simp
          · split <;> simp [isQuartileName, quartileNames, quartileEvents_, List.filter]

theorem runTicks_cons (c d : ℚ) (ts : List (ℚ × ℚ)) (s : PlayerState) :
    runTicks ((c, d) :: ts) s
      = ((runTicks ts (timeUpdateHandler_ c d s).1).1,
         (timeUpdateHandler_ c d s).2 ++ (runTicks ts (timeUpdateHandler_ c d s).1).2) := rfl

/-- Over any tick sequence, the cursor is monotone and bounded by 5 and the
quartile events dispatched are exactly the slice of `quartileNames` between the
initial and the final cursor, in order. -/
theorem runTicks_trace (ts : List (ℚ × ℚ)) (s : PlayerState) (h : s.lastQuartileIndex_ ≤ 5) :
    s.lastQuartileIndex_ ≤ (runTicks ts s).1.lastQuartileIndex_
    ∧ (runTicks ts s).1.lastQuartileIndex_ ≤ 5
    ∧ ((runTicks ts s).2).filter isQuartileName
        = (quartileNames.drop s.lastQuartileIndex_).take
            ((runTicks ts s).1.lastQuartileIndex_ - s.lastQuartileIndex_) := by
  induction ts generalizing s with
  | nil => exact ⟨Nat.le_refl _, h, by simp [runTicks]⟩
  | cons t rest ih =>
    rcases t with ⟨c, d⟩
    rw [runTicks_cons]
    dsimp only
    rcases timeUpdateHandler_cases c d s with ⟨hidx, hfil⟩ | ⟨hlt, hidx, hfil⟩
    · obtain ⟨ih1, ih2, ih3⟩ := ih (timeUpdateHandler_ c d s).1 (by omega)
      refine ⟨by omega, by omega, ?_⟩
      rw [List.filter_append, hfil, ih3, hidx]
      simp
    · obtain ⟨ih1, ih2, ih3⟩ := ih (timeUpdateHandler_ c d s).1 (by omega)
      refine ⟨by omega, by omega, ?_⟩
      rw [List.filter_append, hfil, ih3, hidx]
      have hsplit : (runTicks rest (timeUpdateHandler_ c d s).1).1.lastQuartileIndex_
          - s.lastQuartileIndex_
          = 1 + ((runTicks rest (timeUpdateHandler_ c d s).1).1.lastQuartileIndex_
              - (s.lastQuartileIndex_ + 1)) := by omega
      rw [hsplit, List.take_add, List.drop_drop]

theorem runTicks_append (l1 l2 : List (ℚ × ℚ)) (s : PlayerState) :
    runTicks (l1 ++ l2) s
      = ((runTicks l2 (runTicks l1 s).1).1,
         (runTicks l1 s).2 ++ (runTicks l2 (runTicks l1 s).1).2) := by
  induction l1 generalizing s with
  | nil => simp [runTicks]
  | cons t ts ih =>
    rcases t with ⟨c, d⟩
    rw [List.cons_append, runTicks_cons, runTicks_cons, ih]
    simp

theorem quartileEvents_get_value_le (i : Fin quartileEvents_.length) :
    (quartileEvents_.get i).value ≤ 100 := by
  fin_cases i <;> norm_num [quartileEvents_]

/-- A tick at `currentTime = duration = 30` (percent 100) advances the cursor
by exactly one while it is below the end. -/
theorem timeUpdateHandler_full_tick (s : PlayerState) (h : s.lastQuartileIndex_ < 5) :
    (timeUpdateHandler_ 30 30 s).1.lastQuartileIndex_ = s.lastQuartileIndex_ + 1 := by
  simp only [timeUpdateHandler_]
  rw [dif_neg (by simpa [quartileEvents_length] using Nat.not_le.mpr h)]
  dsimp only
  split
  · split <;> simp
  · rename_i hge
    exfalso
    apply hge
    have h100 : (30 : ℚ) * 100 / 30 = 100 := by norm_num
    rw [h100]
    exact quartileEvents_get_value_le _

theorem timeUpdateHandler_terminal (c d : ℚ) (s : PlayerState) (h : s.lastQuartileIndex_ ≥ 5) :
    (timeUpdateHandler_ c d s).1.lastQuartileIndex_ = s.lastQuartileIndex_ := by
  simp only [timeUpdateHandler_]
  rw [dif_pos (by simpa [quartileEvents_length] using h)]

theorem runTicks_full_ticks (n : Nat) (s : PlayerState) (h : s.lastQuartileIndex_ ≤ 5) :
    (runTicks (List.replicate n (30, 30)) s).1.lastQuartileIndex_
      = min (s.lastQuartileIndex_ + n) 5 := by
  induction n generalizing s with
  | zero => dsimp [runTicks]; omega
  | succ n ihn =>
    rw [List.replicate_succ, runTicks_cons]
    dsimp only
    by_cases h5 : s.lastQuartileIndex_ < 5
    · have hstep := timeUpdateHandler_full_tick s h5
      rw [ihn _ (by omega), hstep]
      omega
    · have hstep := timeUpdateHandler_terminal 30 30 s (by omega)
      rw [ihn _ (by omega), hstep]
      omega

/-- C1 counterexample: a single progress tick at `currentTime = duration = 30`
(percent 100, a monotonically increasing sequence that crosses all five
thresholds at once) dispatches only `AdVideoStart` — the other four crossed
thresholds do not fire on that call, and `AdVideoComplete` never fires at all,
contradicting "the handler dispatches all of the crossed thresholds' events on
that same call" and "each of the five quartile events fires exactly once". -/
theorem quartile_single_tick_skips_thresholds :
    ((runTicks [(30, 30)] initPlayerState).2).filter isQuartileName = ["AdVideoStart"]
    ∧ "AdVideoComplete" ∉ (runTicks [(30, 30)] initPlayerState).2 := by
  norm_num [runTicks, timeUpdateHandler_, initPlayerState, quartileEvents_, isQuartileName,
    quartileNames, List.filter]
  decide

/-- C1 (amended): on each progress tick the handler dispatches at most one
quartile event — the earliest not-yet-fired threshold — rather than all
crossed thresholds; over any sequence of ticks the quartile events dispatched
form an in-order prefix of (start, firstQuartile, midpoint, thirdQuartile,
complete), so each fires at most once, in threshold order, and never again
after the final quartile; and all five fire exactly once provided enough
ticks reach the thresholds (e.g. after five further ticks at percent 100). -/
theorem quartile_fires_once_in_order (ts pre : List (ℚ × ℚ)) :
    ((runTicks ts initPlayerState).2).filter isQuartileName
        = quartileNames.take (runTicks ts initPlayerState).1.lastQuartileIndex_
    ∧ (runTicks ts initPlayerState).1.lastQuartileIndex_ ≤ 5
    ∧ ((runTicks (pre ++ List.replicate 5 (30, 30)) initPlayerState).2).filter isQuartileName
        = quartileNames := by
  obtain ⟨h1, h2, h3⟩ := runTicks_trace ts initPlayerState (by simp [initPlayerState])
  refine ⟨by simpa [initPlayerState] using h3, h2, ?_⟩
  obtain ⟨g1, g2, g3⟩ :=
    runTicks_trace (pre ++ List.replicate 5 (30, 30)) initPlayerState (by simp [initPlayerState])
  rw [g3]
  have hpre := (runTicks_trace pre initPlayerState (by simp [initPlayerState])).2.1
  have hidx : (runTicks (pre ++ List.replicate 5 (30, 30)) initPlayerState).1.lastQuartileIndex_
      = 5 := by
    rw [runTicks_append]
    dsimp only
    rw [runTicks_full_ticks 5 _ hpre]
    omega
  rw [hidx]
  simp [initPlayerState, quartileNames, quartileEvents_]

/-! The tracking-event subsystem (`createEvent`, lines 259–536).

`createEvent` closes over the mutable variables `allowRedirect`,
`alreadyClicked` and `eventAlreadyFired`, shared between `event.trigger`,
the click listener `triggerRedirection` (inside `event.clickCustom`) and the
anchor handler `handleRedirection`.  `SessionState` bundles exactly those
three variables; JS objects used as maps are association lists with
JS-property semantics (`assocGet` / `assocSet`). -/

/-- Property read on a JS object used as a string-keyed map. -/
def assocGet {α : Type} : List (String × α) → String → Option α
  | [], _ => none
  | (k1, v1) :: rest, k => if k1 = k then some v1 else assocGet rest k

/-- Property write on a JS object used as a string-keyed map. -/
def assocSet {α : Type} : List (String × α) → String → α → List (String × α)
  | [], k, v => [(k, v)]
  | (k1, v1) :: rest, k, v =>
    if k1 = k then (k, v) :: rest else (k1, v1) :: assocSet rest k v

theorem assocGet_set_self {α : Type} (l : List (String × α)) (k : String) (v : α) :
    assocGet (assocSet l k v) k = some v := by
  induction l with
  | nil => simp [assocSet, assocGet]
  | cons p rest ih =>
    rcases p with ⟨k1, v1⟩
    by_cases h : k1 = k <;> simp [assocSet, assocGet, h, ih]

theorem assocGet_set_ne {α : Type} (l : List (String × α)) (k k2 : String) (v : α)
    (h : k2 ≠ k) : assocGet (assocSet l k v) k2 = assocGet l k2 := by
  induction l with
  | nil => simp [assocSet, assocGet, Ne.symm h]
  | cons p rest ih =>
    rcases p with ⟨k1, v1⟩
    by_cases h1 : k1 = k
    · subst h1
      simp [assocSet, assocGet, Ne.symm h]
    · by_cases h2 : k1 = k2 <;> simp [assocSet, assocGet, h, h1, h2, ih]

/-- One entry of `eventAlreadyFired`: the stored event type `et` and the
fire counter `ni` (`none` models a record without the `ni` key — a timing
record; a JS `undefined` or `NaN` counter fails the `< 30` test exactly as
`none` does here). -/
structure FireRecord where
  et : String
  ni : Option Nat
deriving Repr, DecidableEq

/-- The mutable closure variables of `createEvent` that the claims are
about: `allowRedirect`, `alreadyClicked` and the `eventAlreadyFired` map. -/
structure SessionState where
  allowRedirect : Bool
  alreadyClicked : Bool
  eventAlreadyFired : List (String × FireRecord)
deriving Repr, DecidableEq

/-- Closure state right after `createEvent` runs: no redirect armed, not
clicked, no event fired. -/
def initSession : SessionState := ⟨false, false, []⟩

/-- The JS test `eventAlreadyFired[eventName]["ni"] < 30` (`undefined < 30`
and `NaN < 30` are both false). -/
def niLt30 : Option Nat → Bool
  | some n => decide (n < 30)
  | none => false

/-- The JS increment `eventAlreadyFired[eventName]["ni"]++` (`undefined++`
gives `NaN`, which still fails the `< 30` test — modelled by `none`). -/
def niInc : Option Nat → Option Nat
  | some n => some (n + 1)
  | none => none

/-- Translation of `event.trigger(eventName, eventType, params)` (lines
289–322), restricted to its effect on the session state; the returned `Bool`
is whether the tracking pixel was fired on this call.  The guard and the
record updates follow the source line by line: a `click` is gated solely by
the `alreadyClicked` latch; a fresh record stores the passed type, with
`ni = 30` for `click`, `ni = 1` for an interaction event and no `ni` key
for a timing event; a repeat occurrence only increments `ni`, and fires
only when the stored type is `"i"` and `ni < 30`. -/
def trigger (eventName eventType : String) (s : SessionState) : SessionState × Bool :=
  let fire : Bool :=
    if eventName = "click" then !s.alreadyClicked
    else
      match assocGet s.eventAlreadyFired eventName with
      | none => true
      | some r => decide (r.et = "i") && niLt30 r.ni
  if fire then
    match assocGet s.eventAlreadyFired eventName with
    | none =>
      if eventName = "click" then
        ({ s with alreadyClicked := true,
                  eventAlreadyFired :=
                    assocSet s.eventAlreadyFired eventName ⟨eventType, some 30⟩ }, true)
      else if eventType = "i" then
        ({ s with eventAlreadyFired :=
                    assocSet s.eventAlreadyFired eventName ⟨eventType, some 1⟩ }, true)
      else
        ({ s with eventAlreadyFired :=
                    assocSet s.eventAlreadyFired eventName ⟨eventType, none⟩ }, true)
    | some r =>
      ({ s with eventAlreadyFired :=
                  assocSet s.eventAlreadyFired eventName ⟨r.et, niInc r.ni⟩ }, true)
  else (s, false)

/-- Runs a sequence of `trigger` calls (`(eventName, eventType)` pairs) and
collects, in order, the fired/suppressed flag of every call whose event name
is `name`. -/
def runFlagsFor (name : String) : List (String × String) → SessionState → List Bool
  | [], _ => []
  | (n, t) :: rest, s =>
    let r := trigger n t s
    if n = name then r.2 :: runFlagsFor name rest r.1 else runFlagsFor name rest r.1

/-- Number of calls in the sequence whose event name is `name`. -/
def countName (name : String) : List (String × String) → Nat
  | [] => 0
  | c :: rest => (if c.1 = name then 1 else 0) + countName name rest

/-- Number of calls in the sequence that fired a `click` tracking pixel. -/
def clickFires : List (String × String) → SessionState → Nat
  | [], _ => 0
  | (n, t) :: rest, s =>
    let r := trigger n t s
    (if n = "click" ∧ r.2 = true then 1 else 0) + clickFires rest r.1


theorem trigger_lookup_other (n t name : String) (s : SessionState) (h : n ≠ name) :
    assocGet (trigger n t s).1.eventAlreadyFired name = assocGet s.eventAlreadyFired name := by
  unfold trigger
  dsimp only
  repeat' split
  all_goals simp [assocGet_set_ne _ _ _ _ (Ne.symm h)]

theorem trigger_already_mono (n t : String) (s : SessionState) (h : s.alreadyClicked = true) :
    (trigger n t s).1.alreadyClicked = true := by
  unfold trigger
  dsimp only
  repeat' split
  all_goals simp [h]

theorem trigger_already_of_ne (n t : String) (s : SessionState) (h : n ≠ "click") :
    (trigger n t s).1.alreadyClicked = s.alreadyClicked := by
  unfold trigger
  dsimp only
  repeat' split
  all_goals simp_all

theorem trigger_interaction_fire (name t : String) (s : SessionState) (j : Nat)
    (hname : name ≠ "click") (hj : j < 30)
    (hrec : assocGet s.eventAlreadyFired name = some ⟨"i", some j⟩) :
    trigger name t s
      = ({ s with eventAlreadyFired :=
            assocSet s.eventAlreadyFired name ⟨"i", some (j + 1)⟩ }, true) := by
  unfold trigger
  simp [hname, hrec, niLt30, niInc, hj]

theorem trigger_interaction_capped (name t : String) (s : SessionState)
    (hname : name ≠ "click")
    (hrec : assocGet s.eventAlreadyFired name = some ⟨"i", some 30⟩) :
    trigger name t s = (s, false) := by
  unfold trigger
  simp [hname, hrec, niLt30]

theorem trigger_timing_rec (name t : String) (s : SessionState) (ni0 : Option Nat)
    (hname : name ≠ "click")
    (hrec : assocGet s.eventAlreadyFired name = some ⟨"t", ni0⟩) :
    trigger name t s = (s, false) := by
  unfold trigger
  simp [hname, hrec]

theorem trigger_fresh_interaction (name : String) (s : SessionState)
    (hname : name ≠ "click")
    (hrec : assocGet s.eventAlreadyFired name = none) :
    trigger name "i" s
      = ({ s with eventAlreadyFired :=
            assocSet s.eventAlreadyFired name ⟨"i", some 1⟩ }, true) := by
  unfold trigger
  simp [hname, hrec]

theorem trigger_fresh_timing (name : String) (s : SessionState)
    (hname : name ≠ "click")
    (hrec : assocGet s.eventAlreadyFired name = none) :
    trigger name "t" s
      = ({ s with eventAlreadyFired :=
            assocSet s.eventAlreadyFired name ⟨"t", none⟩ }, true) := by
  unfold trigger
  simp [hname, hrec]

theorem runFlagsFor_cons (name n t : String) (rest : List (String × String))
    (s : SessionState) :
    runFlagsFor name ((n, t) :: rest) s
      = if n = name then (trigger n t s).2 :: runFlagsFor name rest (trigger n t s).1
        else runFlagsFor name rest (trigger n t s).1 := rfl

theorem countName_cons (name n t : String) (rest : List (String × String)) :
    countName name ((n, t) :: rest)
      = (if n = name then 1 else 0) + countName name rest := rfl

theorem runFlagsFor_interaction_rec (name : String) (hname : name ≠ "click")
    (calls : List (String × String)) (s : SessionState) (j : Nat)
    (hj1 : 1 ≤ j) (hj30 : j ≤ 30)
    (hrec : assocGet s.eventAlreadyFired name = some ⟨"i", some j⟩) :
    runFlagsFor name calls s
      = List.replicate (min (countName name calls) (30 - j)) true
        ++ List.replicate (countName name calls - (30 - j)) false := by
  induction calls generalizing s j with
  | nil => simp [runFlagsFor, countName]
  | cons c rest ih =>
    rcases c with ⟨n, t⟩
    by_cases hn : n = name
    · rw [runFlagsFor_cons, countName_cons, if_pos hn, if_pos hn, hn]
      by_cases hj : j < 30
      · rw [trigger_interaction_fire name t s j hname hj hrec]
        dsimp only
        rw [ih _ (j + 1) (by omega) (by omega) (assocGet_set_self _ _ _)]
        have e3 : 30 - (j + 1) = 29 - j := by omega
        have e1 : min (1 + countName name rest) (30 - j)
            = min (countName name rest) (29 - j) + 1 := by omega
        have e2 : 1 + countName name rest - (30 - j)
            = countName name rest - (29 - j) := by omega
        rw [e3, e1, e2, List.replicate_succ]
        simp
      · have hj' : j = 30 := by omega
        subst hj'
        rw [trigger_interaction_capped name t s hname hrec]
        dsimp only
        rw [ih s 30 (by omega) (by omega) hrec]
        have e1 : min (1 + countName name rest) (30 - 30) = 0 := by omega
        have e2 : min (countName name rest) (30 - 30) = 0 := by omega
        have e3 : 1 + countName name rest - (30 - 30) = countName name rest + 1 := by omega
        have e4 : countName name rest - (30 - 30) = countName name rest := by omega
        rw [e1, e2, e3, e4, List.replicate_succ]
        simp
    · rw [runFlagsFor_cons, countName_cons, if_neg hn, if_neg hn]
      have hrec2 : assocGet (trigger n t s).1.eventAlreadyFired name
          = some ⟨"i", some j⟩ := by
        rw [trigger_lookup_other n t name s hn]
        exact hrec
      simpa using ih _ j hj1 hj30 hrec2

theorem runFlagsFor_interaction (name : String) (hname : name ≠ "click")
    (calls : List (String × String)) (s : SessionState)
    (hcalls : calls.all (fun c => c.1 != name || c.2 == "i") = true)
    (hrec : assocGet s.eventAlreadyFired name = none) :
    runFlagsFor name calls s
      = List.replicate (min (countName name calls) 30) true
        ++ List.replicate (countName name calls - 30) false := by
  induction calls generalizing s with
  | nil => simp [runFlagsFor, countName]
  | cons c rest ih =>
    rcases c with ⟨n, t⟩
    simp only [List.all_cons, Bool.and_eq_true] at hcalls
    obtain ⟨hc1, hrest⟩ := hcalls
    by_cases hn : n = name
    · have ht : t = "i" := by
        rcases Bool.or_eq_true_iff.mp hc1 with h1 | h2
        · exact absurd (by simpa using h1) (by simp [hn])
        · simpa using h2
      rw [runFlagsFor_cons, countName_cons, if_pos hn, if_pos hn, hn, ht]
      rw [trigger_fresh_interaction name s hname hrec]
      dsimp only
      rw [runFlagsFor_interaction_rec name hname rest _ 1 (by omega) (by omega)
        (assocGet_set_self _ _ _)]
      have e1 : min (1 + countName name rest) 30
          = min (countName name rest) (30 - 1) + 1 := by omega
      have e2 : 1 + countName name rest - 30
          = countName name rest - (30 - 1) := by omega
      rw [e1, e2, List.replicate_succ]
      simp
    · rw [runFlagsFor_cons, countName_cons, if_neg hn, if_neg hn]
      have hrec2 : assocGet (trigger n t s).1.eventAlreadyFired name = none := by
        rw [trigger_lookup_other n t name s hn]
        exact hrec
      simpa using ih _ hrest hrec2

theorem runFlagsFor_timing_rec (name : String) (hname : name ≠ "click")
    (calls : List (String × String)) (s : SessionState) (ni0 : Option Nat)
    (hrec : assocGet s.eventAlreadyFired name = some ⟨"t", ni0⟩) :
    runFlagsFor name calls s = List.replicate (countName name calls) false := by
  induction calls generalizing s with
  | nil => simp [runFlagsFor, countName]
  | cons c rest ih =>
    rcases c with ⟨n, t⟩
    by_cases hn : n = name
    · rw [runFlagsFor_cons, countName_cons, if_pos hn, if_pos hn, hn]
      rw [trigger_timing_rec name t s ni0 hname hrec]
      dsimp only
      rw [ih s hrec]
      have e1 : 1 + countName name rest = countName name rest + 1 := by omega
      rw [e1, List.replicate_succ]
    · rw [runFlagsFor_cons, countName_cons, if_neg hn, if_neg hn]
      have hrec2 : assocGet (trigger n t s).1.eventAlreadyFired name
          = some ⟨"t", ni0⟩ := by
        rw [trigger_lookup_other n t name s hn]
        exact hrec
      simpa using ih _ hrec2

theorem runFlagsFor_timing (name : String) (hname : name ≠ "click")
    (calls : List (String × String)) (s : SessionState)
    (hcalls : calls.all (fun c => c.1 != name || c.2 == "t") = true)
    (hrec : assocGet s.eventAlreadyFired name = none) :
    runFlagsFor name calls s
      = List.replicate (min (countName name calls) 1) true
        ++ List.replicate (countName name calls - 1) false := by
  induction calls generalizing s with
  | nil => simp [runFlagsFor, countName]
  | cons c rest ih =>
    rcases c with ⟨n, t⟩
    simp only [List.all_cons, Bool.and_eq_true] at hcalls
    obtain ⟨hc1, hrest⟩ := hcalls
    by_cases hn : n = name
    · have ht : t = "t" := by
        rcases Bool.or_eq_true_iff.mp hc1 with h1 | h2
        · exact absurd (by simpa using h1) (by simp [hn])
        · simpa using h2
      rw [runFlagsFor_cons, countName_cons, if_pos hn, if_pos hn, hn, ht]
      rw [trigger_fresh_timing name s hname hrec]
      dsimp only
      rw [runFlagsFor_timing_rec name hname rest _ none (assocGet_set_self _ _ _)]
      have e1 : min (1 + countName name rest) 1 = 1 := by omega
      have e2 : 1 + countName name rest - 1 = countName name rest := by omega
      rw [e1, e2]
      simp
    · rw [runFlagsFor_cons, countName_cons, if_neg hn, if_neg hn]
      have hrec2 : assocGet (trigger n t s).1.eventAlreadyFired name = none := by
        rw [trigger_lookup_other n t name s hn]
        exact hrec
      simpa using ih _ hrest hrec2

/-- Reachability invariant: while the `alreadyClicked` latch is down, no
`click` record exists (a `click` record is only ever created together with
raising the latch, and the latch never goes back down). -/
def clickInv (s : SessionState) : Prop :=
  s.alreadyClicked = false → assocGet s.eventAlreadyFired "click" = none

theorem trigger_click_already (t : String) (s : SessionState)
    (h : s.alreadyClicked = true) : trigger "click" t s = (s, false) := by
  unfold trigger
  simp [h]

theorem trigger_click_fresh (t : String) (s : SessionState)
    (ha : s.alreadyClicked = false)
    (hrec : assocGet s.eventAlreadyFired "click" = none) :
    trigger "click" t s
      = ({ s with alreadyClicked := true,
                  eventAlreadyFired :=
                    assocSet s.eventAlreadyFired "click" ⟨t, some 30⟩ }, true) := by
  unfold trigger
  simp [ha, hrec]

theorem trigger_clickInv (n t : String) (s : SessionState) (h : clickInv s) :
    clickInv (trigger n t s).1 := by
  by_cases hn : n = "click"
  · subst hn
    by_cases ha : s.alreadyClicked = true
    · rw [trigger_click_already t s ha]
      exact h
    · rw [trigger_click_fresh t s (by simpa using ha) (h (by simpa using ha))]
      intro hfalse
      simp at hfalse
  · intro ha
    rw [trigger_lookup_other n t "click" s hn]
    apply h
    rw [← trigger_already_of_ne n t s hn]
    exact ha

theorem clickFires_cons (n t : String) (rest : List (String × String)) (s : SessionState) :
    clickFires ((n, t) :: rest) s
      = (if n = "click" ∧ (trigger n t s).2 = true then 1 else 0)
        + clickFires rest (trigger n t s).1 := rfl

theorem clickFires_bound (calls : List (String × String)) (s : SessionState)
    (h : clickInv s) :
    clickFires calls s ≤ if s.alreadyClicked = true then 0 else 1 := by
  induction calls generalizing s with
  | nil => simp [clickFires]
  | cons c rest ih =>
    rcases c with ⟨n, t⟩
    rw [clickFires_cons]
    by_cases hn : n = "click"
    · subst hn
      by_cases ha : s.alreadyClicked = true
      · rw [trigger_click_already t s ha]
        have hrest := ih s h
        simp only [ha, if_true] at hrest ⊢
        simpa using hrest
      · have ha' : s.alreadyClicked = false := by simpa using ha
        have hstep := trigger_click_fresh t s ha' (h ha')
        have htrue : (trigger "click" t s).1.alreadyClicked = true := by rw [hstep]
        have hflag : (trigger "click" t s).2 = true := by rw [hstep]
        have hinv2 : clickInv (trigger "click" t s).1 := by
          intro hfalse
          rw [htrue] at hfalse
          cases hfalse
        have hrest := ih _ hinv2
        rw [htrue] at hrest
        simp only [if_true] at hrest
        rw [if_pos ⟨rfl, hflag⟩]
        rw [if_neg ha]
        omega
    · rw [if_neg (by simp [hn])]
      have hrest := ih _ (trigger_clickInv n t s h)
      rw [trigger_already_of_ne n t s hn] at hrest
      simpa using hrest

/-- C2: for every tracking-event name and every sequence of trigger calls
in one session: a non-click interaction-type event (all calls of that name
pass type `"i"`) fires on occurrences 1 through 30 and is suppressed from
occurrence 31 on; a non-click timing-type event fires on occurrence 1 only
and every repeat is suppressed; and over an arbitrary call sequence the
event named `"click"` fires at most once, gated by the `alreadyClicked`
latch, regardless of the event types passed. -/
theorem trigger_dedup_policy (name : String) (callsI callsT callsC : List (String × String))
    (hname : name ≠ "click")
    (hI : callsI.all (fun c => c.1 != name || c.2 == "i") = true)
    (hT : callsT.all (fun c => c.1 != name || c.2 == "t") = true) :
    runFlagsFor name callsI initSession
      = List.replicate (min (countName name callsI) 30) true
        ++ List.replicate (countName name callsI - 30) false
    ∧ runFlagsFor name callsT initSession
      = List.replicate (min (countName name callsT) 1) true
        ++ List.replicate (countName name callsT - 1) false
    ∧ clickFires callsC initSession ≤ 1 := by
  refine ⟨?_, ?_, ?_⟩
  · exact runFlagsFor_interaction name hname callsI initSession hI rfl
  · exact runFlagsFor_timing name hname callsT initSession hT rfl
  · have hb := clickFires_bound callsC initSession (fun _ => rfl)
    simpa [initSession] using hb

/-- Witness for C2 at `name = "view"`, 31 interaction calls, three
timing-sequence calls and a call list with two `click` attempts. -/
theorem trigger_dedup_policy_witness :
    (("view" : String) ≠ "click"
      ∧ (List.replicate 31 (("view" : String), ("i" : String))).all
            (fun c => c.1 != "view" || c.2 == "i") = true
      ∧ ([(("view" : String), ("t" : String)), ("view", "t"), ("other", "i")]).all
            (fun c => c.1 != "view" || c.2 == "t") = true)
    ∧ (runFlagsFor "view" (List.replicate 31 (("view" : String), ("i" : String))) initSession
        = List.replicate
            (min (countName "view" (List.replicate 31 (("view" : String), ("i" : String)))) 30) true
          ++ List.replicate
            (countName "view" (List.replicate 31 (("view" : String), ("i" : String))) - 30) false
      ∧ runFlagsFor "view"
            [(("view" : String), ("t" : String)), ("view", "t"), ("other", "i")] initSession
        = List.replicate
            (min (countName "view"
              [(("view" : String), ("t" : String)), ("view", "t"), ("other", "i")]) 1) true
          ++ List.replicate
            (countName "view"
              [(("view" : String), ("t" : String)), ("view", "t"), ("other", "i")] - 1) false
      ∧ clickFires [(("click" : String), ("i" : String)), ("click", "t"), ("other", "i")]
          initSession ≤ 1) :=
  ⟨⟨by decide, by decide, by decide⟩,
    trigger_dedup_policy "view" _ _
      [(("click" : String), ("i" : String)), ("click", "t"), ("other", "i")]
      (by decide) (by decide) (by decide)⟩

/-- The JS test `s.indexOf(pat) !== -1`: `pat` occurs as a substring. -/
def containsSubstr (s pat : String) : Bool := decide (pat.toList <:+: s.toList)

/-- Translation of `handleRedirection(evt)` (lines 464–475), parameterized by
the exchange confirmation macro `config.macro.gClick`.  Returns the new
session state, the list of gClick confirmation pixels loaded on this call,
and whether `evt.preventDefault()` was called.  If the redirect is armed and
the click latch is down, it raises the latch, disarms, and loads the gClick
pixel unless the macro still contains the `CLICK_URL_UNESC` placeholder;
otherwise it blocks navigation. -/
def handleRedirection (gClick : String) (s : SessionState) : SessionState × List String × Bool :=
  if s.allowRedirect = true ∧ s.alreadyClicked = false then
    ({ s with alreadyClicked := true, allowRedirect := false },
     if containsSubstr gClick "CLICK_URL_UNESC" then [] else [gClick],
     false)
  else (s, [], true)

/-- The events that can touch the gate state in a session: `arm` is the
assignment `allowRedirect = true` — the last statement of the
`triggerRedirection` listener, included so the gate's guarantees hold even
when arming occurs (see `triggerRedirection` for the error that statement is
actually preceded by); `anchorClick` is a click on the overlay anchor
(running `handleRedirection`); `triggerEvent` is any `event.trigger` call. -/
inductive GateAction
  | arm
  | anchorClick
  | triggerEvent (name ty : String)
deriving Repr, DecidableEq

/-- One gate step: returns the new state, the number of gClick confirmation
pixels loaded, and whether the step called `preventDefault`. -/
def gateStep (gClick : String) (s : SessionState) : GateAction → SessionState × Nat × Bool
  | .arm => ({ s with allowRedirect := true }, 0, false)
  | .anchorClick =>
    let r := handleRedirection gClick s
    (r.1, r.2.1.length, r.2.2)
  | .triggerEvent n t => ((trigger n t s).1, 0, false)

/-- Runs a trace of gate actions, accumulating the count of gClick
confirmation pixel loads. -/
def runGate (gClick : String) : List GateAction → SessionState → SessionState × Nat
  | [], s => (s, 0)
  | a :: tr, s =>
    let r := gateStep gClick s a
    let rest := runGate gClick tr r.1
    (rest.1, r.2.1 + rest.2)

theorem runGate_cons (gClick : String) (a : GateAction) (tr : List GateAction)
    (s : SessionState) :
    runGate gClick (a :: tr) s
      = ((runGate gClick tr (gateStep gClick s a).1).1,
         (gateStep gClick s a).2.1 + (runGate gClick tr (gateStep gClick s a).1).2) := rfl

theorem handleRedirection_not_armed (gClick : String) (s : SessionState)
    (hs : ¬ (s.allowRedirect = true ∧ s.alreadyClicked = false)) :
    handleRedirection gClick s = (s, [], true) := by
  unfold handleRedirection
  rw [if_neg hs]

/-- Once the `alreadyClicked` latch is up, no further gClick pixel ever
loads; from any state at most one loads. -/
theorem runGate_bound (gClick : String) (tr : List GateAction) (s : SessionState) :
    (runGate gClick tr s).2 ≤ if s.alreadyClicked = true then 0 else 1 := by
  induction tr generalizing s with
  | nil => simp [runGate]
  | cons a tr ih =>
    rw [runGate_cons]
    cases a with
    | arm =>
      have hrest := ih { s with allowRedirect := true }
      simpa [gateStep] using hrest
    | anchorClick =>
      by_cases hs : s.allowRedirect = true ∧ s.alreadyClicked = false
      · have hstep : (gateStep gClick s GateAction.anchorClick).1
            = { s with alreadyClicked := true, allowRedirect := false } := by
          simp [gateStep, handleRedirection, hs]
        have hlen : (gateStep gClick s GateAction.anchorClick).2.1 ≤ 1 := by
          simp only [gateStep, handleRedirection, if_pos hs]
          split <;> simp
        have hrest := ih (gateStep gClick s GateAction.anchorClick).1
        rw [hstep] at hrest
        simp only at hrest
        simp at hrest
        rw [if_neg (by simp [hs.2]), hstep]
        dsimp only
        omega
      · have hstep : gateStep gClick s GateAction.anchorClick = (s, 0, true) := by
          simp [gateStep, handleRedirection_not_armed gClick s hs]
        rw [hstep]
        simpa using ih s
    | triggerEvent n t =>
      have hrest := ih (trigger n t s).1
      dsimp only [gateStep]
      by_cases ha : s.alreadyClicked = true
      · rw [if_pos ha]
        rw [trigger_already_mono n t s ha] at hrest
        simpa using hrest
      · rw [if_neg ha]
        have h1 : (runGate gClick tr (trigger n t s).1).2 ≤ 1 := by
          refine le_trans hrest ?_
          split <;> omega
        simpa using h1

/-- C3: over every trace of session events (arming clicks, overlay-anchor
clicks, tracker events) the exchange click-confirmation pixel (the gClick
macro URL) is loaded at most once; and in any state that is not
Armed-and-not-yet-Consumed (`allowRedirect = true ∧ alreadyClicked = false`)
— in particular the Idle state with no redirect armed — `handleRedirection`
loads no pixel, leaves the state unchanged and calls `preventDefault`,
blocking navigation, so firing the confirmation pixel before Armed is
unreachable. -/
theorem clickGate_confirmation (gClick : String) (tr : List GateAction) (s : SessionState)
    (hs : ¬ (s.allowRedirect = true ∧ s.alreadyClicked = false)) :
    (runGate gClick tr initSession).2 ≤ 1
    ∧ handleRedirection gClick s = (s, [], true) := by
  refine ⟨?_, handleRedirection_not_armed gClick s hs⟩
  have hb := runGate_bound gClick tr initSession
  simpa [initSession] using hb

/-- Witness for C3 on a concrete trace with two arm/click rounds and a
manual click trigger, checked from the Idle initial state. -/
theorem clickGate_confirmation_witness :
    (¬ (initSession.allowRedirect = true ∧ initSession.alreadyClicked = false))
    ∧ ((runGate "https://gclick.example/px"
          [GateAction.arm, GateAction.anchorClick, GateAction.arm, GateAction.anchorClick,
           GateAction.triggerEvent "click" "i"] initSession).2 ≤ 1
      ∧ handleRedirection "https://gclick.example/px" initSession = (initSession, [], true)) :=
  ⟨by decide,
    clickGate_confirmation "https://gclick.example/px"
      [GateAction.arm, GateAction.anchorClick, GateAction.arm, GateAction.anchorClick,
       GateAction.triggerEvent "click" "i"] initSession (by decide)⟩

/-- The only gate-relevant events reachable when the creative is driven
purely through the VPAID lifecycle interface: overlay-anchor clicks, and
`startAd`'s single tracking call `events.trigger('loaded_imp','i')` (lines
538–547: no lifecycle method calls `event.click` or `event.clickCustom`, so
no arming event exists). -/
inductive LifecycleAction
  | anchorClick
  | startAdImp
deriving Repr, DecidableEq, BEq

def lifecycleStep (gClick : String) (s : SessionState) :
    LifecycleAction → SessionState × Nat × Bool
  | .anchorClick => gateStep gClick s .anchorClick
  | .startAdImp => gateStep gClick s (.triggerEvent "loaded_imp" "i")

/-- Runs a lifecycle-driven trace; returns the final state, the count of
gClick confirmation pixel loads, and the count of `preventDefault` calls. -/
def runLifecycle (gClick : String) : List LifecycleAction → SessionState → SessionState × Nat × Nat
  | [], s => (s, 0, 0)
  | a :: tr, s =>
    let r := lifecycleStep gClick s a
    let rest := runLifecycle gClick tr r.1
    (rest.1, r.2.1 + rest.2.1, (if r.2.2 then 1 else 0) + rest.2.2)

/-- Identifiers bound in the scope chain visible to the click listener
`triggerRedirection` (lines 329–336): the parameters of its enclosing
function `eventClickCustom`, the `createEvent` closure's vars and function
declarations, `startAd`'s locals, the module-level declarations and the
browser globals this file uses.  `addParams` is NOT among them:
`event.addParams = function addParams(...){...}` is a named function
expression, whose name is bound only inside its own body, never in
`createEvent`'s scope. -/
def createEventScopeIdents : List String :=
  ["url", "cssElement", "params", "clickPixel", "triggerRedirection",
   "allowRedirect", "aElement", "event", "trackerClickUrl", "trackerEventUrl",
   "urlRedirectionDashboard", "alreadyClicked", "pos_interact", "constant_params",
   "eventAlreadyFired", "nbCallsInUrl", "timeStart", "screenX", "screenY",
   "mergeTwoObjects", "updateQueryStringParameter", "captureInteraction",
   "getPosition", "handleRedirection", "getParameterByName", "init", "init_load",
   "config", "creativeDataAdm", "poiList", "POIAdm", "poiId", "audioToUse",
   "rndInt", "changeAudioByPoi", "videoFV", "configAdm", "ccCD", "createEvent",
   "events", "VpaidVideoPlayer", "getVPAIDAd", "window", "document", "Image",
   "JSON", "Math", "Date", "RegExp", "console", "setTimeout", "setInterval",
   "clearInterval", "decodeURIComponent", "encodeURIComponent", "isNaN"]

/-- The body of the `triggerRedirection` click listener registered by
`event.clickCustom` (lines 330–335): `event.buildUrl(url, clickPixel)` is
evaluated first (pure with respect to the session state), then
`redirect += addParams(\"i\", params)` resolves the free identifier
`addParams` against the scope chain; the lookup fails, so a `ReferenceError`
is raised before `aElement.href` is assigned and before
`allowRedirect = true` executes. -/
def triggerRedirection (s : SessionState) : Except String SessionState :=
  if "addParams" ∈ createEventScopeIdents then
    Except.ok { s with allowRedirect := true }
  else Except.error "ReferenceError: addParams is not defined"

theorem runLifecycle_cons (gClick : String) (a : LifecycleAction) (tr : List LifecycleAction)
    (s : SessionState) :
    runLifecycle gClick (a :: tr) s
      = ((runLifecycle gClick tr (lifecycleStep gClick s a).1).1,
         (lifecycleStep gClick s a).2.1
           + (runLifecycle gClick tr (lifecycleStep gClick s a).1).2.1,
         (if (lifecycleStep gClick s a).2.2 then 1 else 0)
           + (runLifecycle gClick tr (lifecycleStep gClick s a).1).2.2) := rfl

theorem trigger_allowRedirect (n t : String) (s : SessionState) :
    (trigger n t s).1.allowRedirect = s.allowRedirect := by
  unfold trigger
  dsimp only
  repeat' split
  all_goals simp

theorem runLifecycle_idle (gClick : String) (tr : List LifecycleAction) (s : SessionState)
    (h : s.allowRedirect = false) :
    (runLifecycle gClick tr s).1.allowRedirect = false
    ∧ (runLifecycle gClick tr s).2.1 = 0
    ∧ (runLifecycle gClick tr s).2.2 = tr.count LifecycleAction.anchorClick := by
  induction tr generalizing s with
  | nil => simp [runLifecycle, h]
  | cons a tr ih =>
    rw [runLifecycle_cons]
    cases a with
    | anchorClick =>
      have hstep : lifecycleStep gClick s LifecycleAction.anchorClick = (s, 0, true) := by
        simp [lifecycleStep, gateStep,
          handleRedirection_not_armed gClick s (by simp [h])]
      rw [hstep]
      obtain ⟨ih1, ih2, ih3⟩ := ih s h
      refine ⟨ih1, by simpa using ih2, ?_⟩
      simp [ih3, List.count_cons,
        show (LifecycleAction.anchorClick == LifecycleAction.anchorClick) = true from rfl]
      omega
    | startAdImp =>
      have hallow : (lifecycleStep gClick s LifecycleAction.startAdImp).1.allowRedirect
          = false := by
        simp [lifecycleStep, gateStep, trigger_allowRedirect, h]
      have hpx : (lifecycleStep gClick s LifecycleAction.startAdImp).2.1 = 0 := by
        simp [lifecycleStep, gateStep]
      have hprev : (lifecycleStep gClick s LifecycleAction.startAdImp).2.2 = false := by
        simp [lifecycleStep, gateStep]
      obtain ⟨ih1, ih2, ih3⟩ := ih _ hallow
      refine ⟨ih1, by simp [hpx, ih2], ?_⟩
      simp [hprev, ih3, List.count_cons,
        show (LifecycleAction.startAdImp == LifecycleAction.anchorClick) = false from rfl]

/-- C4: in every session driven only through the lifecycle interface the
click gate never leaves Idle — `allowRedirect` stays false along the whole
trace, the gClick confirmation pixel is never loaded, and every click on the
overlay anchor is answered with `preventDefault`; moreover, even if
`clickCustom`'s arming listener ran, it would raise a `ReferenceError` on
the unbound identifier `addParams` before setting `allowRedirect` to true,
from any session state. -/
theorem lifecycle_gate_stays_idle (gClick : String) (tr : List LifecycleAction)
    (s : SessionState) :
    (runLifecycle gClick tr initSession).1.allowRedirect = false
    ∧ (runLifecycle gClick tr initSession).2.1 = 0
    ∧ (runLifecycle gClick tr initSession).2.2 = tr.count LifecycleAction.anchorClick
    ∧ triggerRedirection s = Except.error "ReferenceError: addParams is not defined" := by
  obtain ⟨h1, h2, h3⟩ := runLifecycle_idle gClick tr initSession rfl
  refine ⟨h1, h2, h3, ?_⟩
  simp only [triggerRedirection]
  rw [if_neg (by decide)]

/-! The lifecycle event dispatcher: `subscribe` (lines 687–694),
`unsubscribe` (lines 702–705) and `callEvent_` (lines 777–781). -/

/-- The `eventsCallbacks_` object.  A key can hold a bound callback
(modelled by a numeric id — invoking it is outside the model) or the JS
`null` that `unsubscribe` stores (`none`). -/
abbrev CallbackStore := List (String × Option Nat)

def emptyCallbacks : CallbackStore := []

/-- Translation of `subscribe`: `this.eventsCallbacks_[eventName] = callBack`. -/
def subscribe (store : CallbackStore) (eventName : String) (cb : Nat) : CallbackStore :=
  assocSet store eventName (some cb)

/-- Translation of `unsubscribe`: `this.eventsCallbacks_[eventName] = null` —
the key stays present, holding `null`. -/
def unsubscribe (store : CallbackStore) (eventName : String) : CallbackStore :=
  assocSet store eventName none

/-- Translation of `callEvent_`: `if (eventType in this.eventsCallbacks_)`
(the `in` operator tests key presence, a `null` value included), then
`this.eventsCallbacks_[eventType]()` — invoking `null` raises a TypeError. -/
def callEvent_ (store : CallbackStore) (eventType : String) : Except String (Option Nat) :=
  match assocGet store eventType with
  | none => Except.ok none
  | some (some cb) => Except.ok (some cb)
  | some none => Except.error "TypeError: this.eventsCallbacks_[eventType] is not a function"

/-- C5 (code bug): dispatching an event whose subscription was cleared by
`unsubscribe` raises a TypeError instead of being a no-op — `unsubscribe`
stores `null` rather than deleting the key, the `in` test still passes, and
`callEvent_` invokes the `null`.  Dispatching a never-subscribed event is a
no-op as the claim says. -/
theorem callEvent_after_unsubscribe_raises :
    callEvent_ (unsubscribe (subscribe emptyCallbacks "AdLoaded" 0) "AdLoaded") "AdLoaded"
      = Except.error "TypeError: this.eventsCallbacks_[eventType] is not a function"
    ∧ callEvent_ emptyCallbacks "AdLoaded" = Except.ok none := by
  constructor <;> rfl

/-! Media-source selection: `updateVideoSlot_` (lines 171–194) inside
`initAd` (lines 96–130).  `initAd` is modelled by its effect on the media
source and the dispatched lifecycle events, taking the already-parsed
`parameters_.videos` list and the media element's `canPlayType` probe as
inputs (attribute writes, JSON parsing and listener registration are
orthogonal to this claim). -/

/-- One entry of `parameters_.videos`. -/
structure VideoCandidate where
  url : String
  mimetype : String
deriving Repr, DecidableEq

/-- The source-selection loop of `updateVideoSlot_`: first candidate whose
mimetype `canPlayType` does not report as `""` wins (`break`). -/
def findSource (canPlayType : String → String) : List VideoCandidate → Option String
  | [] => none
  | v :: vs => if canPlayType v.mimetype ≠ "" then some v.url else findSource canPlayType vs

/-- Translation of `updateVideoSlot_`: returns the `src` set on the media
element (if any) and the lifecycle events dispatched (`AdError` when no
candidate was playable). -/
def updateVideoSlot_ (canPlayType : String → String) (videos : List VideoCandidate) :
    Option String × List String :=
  match findSource canPlayType videos with
  | some u => (some u, [])
  | none => (none, ["AdError"])

/-- The part of `initAd` relevant to C6: it runs `updateVideoSlot_` and then
dispatches `AdLoaded`. -/
def initAd (canPlayType : String → String) (videos : List VideoCandidate) :
    Option String × List String :=
  let r := updateVideoSlot_ canPlayType videos
  (r.1, r.2 ++ ["AdLoaded"])

theorem findSource_eq_find (cpt : String → String) (videos : List VideoCandidate) :
    findSource cpt videos
      = (videos.find? (fun v => cpt v.mimetype != "")).map VideoCandidate.url := by
  induction videos with
  | nil => simp [findSource]
  | cons v vs ih =>
    by_cases h : cpt v.mimetype = ""
    · simp [findSource, List.find?_cons, h, ih]
    · simp [findSource, List.find?_cons, h]

/-- C6: `initAd` selects as the active media source the first candidate in
the payload's `videos` list whose mimetype the media element reports as
playable; when no candidate is playable it dispatches exactly one `AdError`
lifecycle event and sets no source (the model is a total function — nothing
is thrown). -/
theorem initAd_media_selection (cpt : String → String) (videos : List VideoCandidate) :
    (initAd cpt videos).1
        = (videos.find? (fun v => cpt v.mimetype != "")).map VideoCandidate.url
    ∧ (initAd cpt videos).2.count "AdError"
        = (if (videos.find? (fun v => cpt v.mimetype != "")).isSome then 0 else 1) := by
  cases hres : videos.find? (fun v => cpt v.mimetype != "") with
  | none =>
    constructor
    · simp [initAd, updateVideoSlot_, findSource_eq_find, hres]
    · simp [initAd, updateVideoSlot_, findSource_eq_find, hres]
  | some v =>
    constructor
    · simp [initAd, updateVideoSlot_, findSource_eq_find, hres]
    · simp [initAd, updateVideoSlot_, findSource_eq_find, hres]

/-! The elapsed-time parameter of `event.addParams` (lines 398–430). -/

theorem jsRound_eq (q : ℚ) (n : ℤ) (h1 : (n : ℚ) ≤ q + 1/2) (h2 : q + 1/2 < n + 1) :
    jsRound q = n := by
  unfold jsRound
  rw [Int.floor_eq_iff]
  exact ⟨h1, h2⟩

/-- The value stored in `oParams["t"]` by `event.addParams`: elapsed
milliseconds since `timeStart` divided by 1000, clamped above at 3000, then
`Math.round`ed. -/
def addParams_t (timeStartMs timeEventMs : ℤ) : ℤ :=
  let t : ℚ := ((timeEventMs : ℚ) - (timeStartMs : ℚ)) / 1000
  let t2 : ℚ := if t > 3000 then 3000 else t
  jsRound t2

/-- C7: the appended elapsed-time parameter `t` equals the seconds elapsed
since session start clamped above at 3000 (clamp applied in seconds) and
then rounded to the nearest integer; firing 5000 ms after session start
emits `t = 5`, and an elapsed time of 3500 seconds emits `t = 3000`. -/
theorem addParams_elapsed_clamp (t0 t1 : ℤ) :
    addParams_t t0 t1 = jsRound (min (((t1 : ℚ) - (t0 : ℚ)) / 1000) 3000)
    ∧ addParams_t 0 5000 = 5
    ∧ addParams_t 0 3500000 = 3000 := by
  refine ⟨?_, ?_, ?_⟩
  · unfold addParams_t
    dsimp only
    congr 1
    rcases le_or_lt ((((t1 : ℤ) : ℚ) - ((t0 : ℤ) : ℚ)) / 1000) (3000 : ℚ) with h | h
    · rw [if_neg (not_lt.mpr h), min_eq_left h]
    · rw [if_pos h, min_eq_right h.le]
  · have h5 : (((5000 : ℤ) : ℚ) - ((0 : ℤ) : ℚ)) / 1000 = 5 := by norm_num
    unfold addParams_t
    dsimp only
    rw [h5, if_neg (by norm_num)]
    exact jsRound_eq _ _ (by norm_num) (by norm_num)
  · have h35 : (((3500000 : ℤ) : ℚ) - ((0 : ℤ) : ℚ)) / 1000 = 3500 := by norm_num
    unfold addParams_t
    dsimp only
    rw [h35, if_pos (by norm_num)]
    exact jsRound_eq _ _ (by norm_num) (by norm_num)

/-! POI-based audio selection in `startAd` (lines 229–252). -/

/-- One entry of the static `poiList` table. -/
structure PoiEntry where
  c : String
  poi : String
  lom1 : String
  lom2 : String
  lom3 : String
deriving Repr, DecidableEq

/-- The JS property read `elem["lom" + rndInt]`: `undefined` (`none`) for
an index outside 1–3. -/
def lomField (e : PoiEntry) (rndInt : Nat) : Option String :=
  if rndInt = 1 then some e.lom1
  else if rndInt = 2 then some e.lom2
  else if rndInt = 3 then some e.lom3
  else none

/-- Translation of `changeAudioByPoi`: `poiList.map` assigns `audioToUse`
on every matching entry (last match wins); `audioToUse` stays `undefined`
(`none`) when no entry matches. -/
def changeAudioByPoi (poiList : List PoiEntry) (poiId : String) (rndInt : Nat) :
    Option String :=
  poiList.foldl (fun acc e => if e.poi = poiId then lomField e rndInt else acc) none

/-- What `setAttribute('src', audioToUse)` stores: `setAttribute` coerces
the JS `undefined` value to the string `"undefined"`. -/
def jsSrcString : Option String → String
  | some u => u
  | none => "undefined"

/-- Observable effects of `startAd` on the media element and the event
subsystem: the `setAttribute('src', ·)` calls made, whether `play()` was
called, the lifecycle events dispatched via `callEvent_`, and the
`events.trigger` calls made. -/
structure StartAdResult where
  srcCalls : List String
  playCalled : Bool
  lifecycleEvents : List String
  trackerEvents : List (String × String)
deriving Repr, DecidableEq

/-- Translation of `startAd` (lines 229–252 and 538–547), parameterized by
the decoded POI id and the drawn `rndInt ∈ {1,2,3}`: it unconditionally sets
the media `src` to `audioToUse` (coerced), calls `play()`, fires the
`loaded_imp` interaction event, and dispatches `AdStarted` and
`AdImpression`.  It never dispatches `AdError`. -/
def startAd (poiList : List PoiEntry) (poiId : String) (rndInt : Nat) : StartAdResult :=
  let audioToUse := changeAudioByPoi poiList poiId rndInt
  { srcCalls := [jsSrcString audioToUse]
  , playCalled := true
  , lifecycleEvents := ["AdStarted", "AdImpression"]
  , trackerEvents := [("loaded_imp", "i")] }

/-- The first two entries of the creative's `poiList` table, verbatim. -/
def samplePoiList : List PoiEntry :=
  [⟨"AGEN", "spb7mc5cxgfp",
    "https://assets.adotmob.com/Audi/111023/audio/AGEN+-+AUDI+JMA+A3+TFSIE+25%2B5+LOM1+29.09.23.mp3",
    "https://assets.adotmob.com/Audi/111023/audio/AGEN+-+AUDI+JMA+A3+TFSIE+25%2B5+LOM1+29.09.23.mp3",
    "https://assets.adotmob.com/Audi/111023/audio/AGEN+-+AUDI+JMA+A3+TFSIE+25%2B5+LOM1+29.09.23.mp3"⟩,
   ⟨"AIX EN PROVENCE", "speze074p4bt",
    "https://assets.adotmob.com/Audi/111023/audio/AGEN+-+AUDI+JMA+A3+TFSIE+25%2B5+LOM1+29.09.23.mp3",
    "https://assets.adotmob.com/Audi/111023/audio/AGEN+-+AUDI+JMA+A3+TFSIE+25%2B5+LOM1+29.09.23.mp3",
    "https://assets.adotmob.com/Audi/111023/audio/AGEN+-+AUDI+JMA+A3+TFSIE+25%2B5+LOM1+29.09.23.mp3"⟩]

theorem changeAudioByPoi_not_found (poiList : List PoiEntry) (poiId : String) (rndInt : Nat)
    (h : poiId ∉ poiList.map PoiEntry.poi) :
    changeAudioByPoi poiList poiId rndInt = none := by
  have hgen : ∀ acc : Option String,
      poiList.foldl (fun acc e => if e.poi = poiId then lomField e rndInt else acc) acc
        = acc := by
    induction poiList with
    | nil => intro acc; rfl
    | cons e rest ih =>
      intro acc
      simp only [List.map_cons, List.mem_cons] at h
      push_neg at h
      rw [List.foldl_cons, if_neg (fun he => h.1 he.symm)]
      exact ih h.2 acc
  exact hgen none

/-- C8 counterexample: with a POI id absent from the table, `startAd` is
not a no-op with respect to the media source — it still calls
`setAttribute('src', audioToUse)` with the undefined value, setting the
`src` attribute to the string `"undefined"` (a non-empty list of src
writes), contradicting `no source is set on the media element`. -/
theorem startAd_missing_poi_sets_undefined_src :
    (startAd samplePoiList "zzzznotapoi" 1).srcCalls = ["undefined"]
    ∧ (startAd samplePoiList "zzzznotapoi" 1).srcCalls ≠ [] := by
  decide

/-- C8 (amended): when the decoded POI id has no entry in the table,
`startAd` dispatches no Error lifecycle event and throws nothing, but it is
not a silent no-op on the media source: `audioToUse` stays undefined and
`setAttribute('src', audioToUse)` still runs, setting the src attribute to
the string `"undefined"`, and `play()` is still called; no URL from the
table is selected. -/
theorem startAd_missing_poi (poiList : List PoiEntry) (poiId : String) (rndInt : Nat)
    (h : poiId ∉ poiList.map PoiEntry.poi) :
    changeAudioByPoi poiList poiId rndInt = none
    ∧ (startAd poiList poiId rndInt).srcCalls = ["undefined"]
    ∧ "AdError" ∉ (startAd poiList poiId rndInt).lifecycleEvents
    ∧ (startAd poiList poiId rndInt).playCalled = true := by
  have hc := changeAudioByPoi_not_found poiList poiId rndInt h
  refine ⟨hc, ?_, ?_, rfl⟩
  · simp [startAd, hc, jsSrcString]
  · simp [startAd]

/-- Witness for C8 on the real table excerpt and an absent id. -/
theorem startAd_missing_poi_witness :
    ("zzzznotapoi" ∉ samplePoiList.map PoiEntry.poi)
    ∧ (changeAudioByPoi samplePoiList "zzzznotapoi" 2 = none
      ∧ (startAd samplePoiList "zzzznotapoi" 2).srcCalls = ["undefined"]
      ∧ "AdError" ∉ (startAd samplePoiList "zzzznotapoi" 2).lifecycleEvents
      ∧ (startAd samplePoiList "zzzznotapoi" 2).playCalled = true) :=
  ⟨by decide, startAd_missing_poi samplePoiList "zzzznotapoi" 2 (by decide)⟩

/-! Interaction-position capture: `getPosition` (lines 455–463). -/

/-- A JS value read from an event's coordinate property: a finite number or
`undefined`. -/
inductive JsNum
  | undef
  | num (q : ℚ)
deriving Repr, DecidableEq

/-- JS truthiness of a coordinate value: `0`, `undefined` (and `NaN`) are
falsy. -/
def JsNum.truthy : JsNum → Bool
  | .undef => false
  | .num q => decide (q ≠ 0)

/-- The JS `isNaN(x)` test: `isNaN(undefined)` is true. -/
def jsIsNaN : JsNum → Bool
  | .undef => true
  | .num _ => false

def JsNum.toQ : JsNum → ℚ
  | .undef => 0
  | .num q => q

structure JsTouch where
  clientX : JsNum
  clientY : JsNum
deriving Repr, DecidableEq

structure JsUiEvent where
  clientX : JsNum
  clientY : JsNum
  targetTouches : Option (List JsTouch)
deriving Repr, DecidableEq

/-- Evaluation of `evt.clientX || evt.targetTouches[0].clientX`: if the
direct coordinate is falsy (including the legitimate coordinate `0`), the
fallback dereferences `targetTouches[0]` — a TypeError when `targetTouches`
is `undefined` (mouse and click events) or empty. -/
def coordOrTouch (c : JsNum) (tt : Option (List JsTouch)) (proj : JsTouch → JsNum) :
    Except String JsNum :=
  if c.truthy then Except.ok c
  else
    match tt with
    | none => Except.error "TypeError: evt.targetTouches is undefined"
    | some ts =>
      match ts.head? with
      | none => Except.error "TypeError: evt.targetTouches[0] is undefined"
      | some t0 => Except.ok (proj t0)

/-- Translation of `getPosition(evt)`: computes the new `pos_interact`
string, or the exception the handler raises. -/
def getPosition (screenX screenY : ℚ) (evt : JsUiEvent) : Except String String :=
  match coordOrTouch evt.clientX evt.targetTouches JsTouch.clientX with
  | Except.error e => Except.error e
  | Except.ok xPos =>
    match coordOrTouch evt.clientY evt.targetTouches JsTouch.clientY with
    | Except.error e => Except.error e
    | Except.ok yPos =>
      if !(jsIsNaN xPos || jsIsNaN yPos) then
        Except.ok (toString (jsRound (xPos.toQ / screenX * 100)) ++ "_"
          ++ toString (jsRound (yPos.toQ / screenY * 100)))
      else
        Except.ok "0_0"

/-- C9 (code bug): a plain click at the left screen edge
(`clientX = 0`, no `targetTouches`) makes `getPosition` throw a TypeError —
`0` is falsy, so `evt.targetTouches[0].clientX` is evaluated on an event
with no `targetTouches` — so the handler is not exception-free.  The
`"0_0"` fallback and the normal position formula behave as claimed on
inputs that reach them. -/
theorem getPosition_left_edge_click_raises :
    getPosition 100 100
        { clientX := JsNum.num 0, clientY := JsNum.num 10, targetTouches := none }
      = Except.error "TypeError: evt.targetTouches is undefined"
    ∧ getPosition 100 100
        { clientX := JsNum.undef, clientY := JsNum.undef,
          targetTouches := some [{ clientX := JsNum.undef, clientY := JsNum.undef }] }
      = Except.ok "0_0"
    ∧ getPosition 100 100
        { clientX := JsNum.num 50, clientY := JsNum.num 10,
          targetTouches := some [] }
      = Except.ok (toString (jsRound ((50 : ℚ) / 100 * 100)) ++ "_"
          ++ toString (jsRound ((10 : ℚ) / 100 * 100))) := by
  refine ⟨rfl, rfl, ?_⟩
  simp [getPosition, coordOrTouch, JsNum.truthy, jsIsNaN, JsNum.toQ]

/-! The volume attribute: `setAdVolume` (lines 566–571), `getAdVolume`
(lines 577–580) and `muteButtonOnClick_` (lines 786–796). -/

/-- The stored `attributes_['volume']` together with the media element's
`volume` property. -/
structure VolumeState where
  attrVolume : ℚ
  elemVolume : ℚ
deriving Repr, DecidableEq

def initVolumeState : VolumeState := ⟨1, 1⟩

/-- Translation of `setAdVolume(value)`: stores `value` unvalidated in the
attribute and sets the element volume to `value / 100`. -/
def setAdVolume (value : ℚ) (_s : VolumeState) : VolumeState :=
  { attrVolume := value, elemVolume := value / 100 }

def getAdVolume (s : VolumeState) : ℚ := s.attrVolume

/-- Translation of `muteButtonOnClick_`: toggles between volume 0 and 1. -/
def muteButtonOnClick_ (s : VolumeState) : VolumeState :=
  if s.attrVolume = 0 then { attrVolume := 1, elemVolume := 1 }
  else { attrVolume := 0, elemVolume := 0 }

/-- The operations that touch the stored volume; no other lifecycle
operation writes `attributes_['volume']`. -/
inductive VolumeOp
  | setAdVolumeOp (value : ℚ)
  | muteToggle
deriving Repr, DecidableEq

/-- Whether an operation keeps the claimed invariant's precondition: a
`setAdVolume` argument inside `[0,1]`. -/
def volumeOpOk : VolumeOp → Bool
  | .setAdVolumeOp v => decide (0 ≤ v) && decide (v ≤ 1)
  | .muteToggle => true

def applyVolumeOp (s : VolumeState) : VolumeOp → VolumeState
  | .setAdVolumeOp v => setAdVolume v s
  | .muteToggle => muteButtonOnClick_ s

def runVolumeOps : List VolumeOp → VolumeState → VolumeState
  | [], s => s
  | op :: rest, s => runVolumeOps rest (applyVolumeOp s op)

/-- C10 counterexample: `setAdVolume` stores its argument unvalidated, so
`setAdVolume(50)` makes `getAdVolume()` return `50 ∉ [0,1]`, refuting the
invariant for arbitrary passed values. -/
theorem volume_unclamped_counterexample :
    getAdVolume (setAdVolume 50 initVolumeState) = 50
    ∧ ¬ (getAdVolume (setAdVolume 50 initVolumeState) ≤ 1) := by
  constructor
  · rfl
  · norm_num [getAdVolume, setAdVolume]

theorem runVolumeOps_bounded (ops : List VolumeOp) (s : VolumeState)
    (h : ops.all volumeOpOk = true) (h0 : 0 ≤ s.attrVolume) (h1 : s.attrVolume ≤ 1) :
    0 ≤ (runVolumeOps ops s).attrVolume ∧ (runVolumeOps ops s).attrVolume ≤ 1 := by
  induction ops generalizing s with
  | nil => exact ⟨h0, h1⟩
  | cons op rest ih =>
    simp only [List.all_cons, Bool.and_eq_true] at h
    obtain ⟨hop, hrest⟩ := h
    cases op with
    | setAdVolumeOp v =>
      simp only [volumeOpOk, Bool.and_eq_true, decide_eq_true_eq] at hop
      exact ih (setAdVolume v s) hrest hop.1 hop.2
    | muteToggle =>
      by_cases hz : s.attrVolume = 0
      · have hstep : applyVolumeOp s VolumeOp.muteToggle
            = { attrVolume := 1, elemVolume := 1 } := by
          simp [applyVolumeOp, muteButtonOnClick_, hz]
        rw [show runVolumeOps (VolumeOp.muteToggle :: rest) s
            = runVolumeOps rest (applyVolumeOp s VolumeOp.muteToggle) from rfl, hstep]
        exact ih _ hrest (by norm_num) (by norm_num)
      · have hstep : applyVolumeOp s VolumeOp.muteToggle
            = { attrVolume := 0, elemVolume := 0 } := by
          simp [applyVolumeOp, muteButtonOnClick_, hz]
        rw [show runVolumeOps (VolumeOp.muteToggle :: rest) s
            = runVolumeOps rest (applyVolumeOp s VolumeOp.muteToggle) from rfl, hstep]
        exact ih _ hrest (by norm_num) (by norm_num)

/-- C10 (amended): over every sequence of `setAdVolume` and mute-toggle
operations in which each `setAdVolume` argument lies in `[0,1]`,
`getAdVolume()` stays in `[0,1]` (the mute toggle alone always yields 0 or
1); for unrestricted arguments the invariant fails, since `setAdVolume`
stores the raw value. -/
theorem volume_invariant_restricted (ops : List VolumeOp)
    (h : ops.all volumeOpOk = true) :
    0 ≤ getAdVolume (runVolumeOps ops initVolumeState)
    ∧ getAdVolume (runVolumeOps ops initVolumeState) ≤ 1 :=
  runVolumeOps_bounded ops initVolumeState h (by norm_num [initVolumeState])
    (by norm_num [initVolumeState])

/-- Witness for C10 on a concrete in-range operation sequence. -/
theorem volume_invariant_restricted_witness :
    ([VolumeOp.setAdVolumeOp (1/2), VolumeOp.muteToggle].all volumeOpOk = true)
    ∧ (0 ≤ getAdVolume (runVolumeOps [VolumeOp.setAdVolumeOp (1/2), VolumeOp.muteToggle]
          initVolumeState)
      ∧ getAdVolume (runVolumeOps [VolumeOp.setAdVolumeOp (1/2), VolumeOp.muteToggle]
          initVolumeState) ≤ 1) :=
  ⟨by norm_num [volumeOpOk],
   volume_invariant_restricted [VolumeOp.setAdVolumeOp (1/2), VolumeOp.muteToggle]
     (by norm_num [volumeOpOk])⟩
